import Mathlib

/-!
Shallow embedding of the `tiny_riff` crate (src/src/lib.rs), a zero-copy
reader for RIFF-family chunk containers, together with theorems settling
the frozen claims about it.

Modelling conventions:
* A Rust byte slice `&[u8]` is a `List Nat` (each entry a byte value).
* Rust `usize`/`u32` arithmetic is carried out on `Nat`; where the source
  can overflow/underflow a machine integer or index out of bounds (which
  aborts the process), the model returns the distinguished `RResult.panic`
  outcome.  `a - b` on `usize` debug-panics when `b > a`, and a slice
  expression `&data[a..b]` panics when `b > data.len()`; both are modelled
  as explicit `panic` branches guarded by the exact conditions under which
  the source expression aborts.
* A Rust function returning `(usize, Result<T, RiffError>)` becomes a
  function into `RResult T`, whose `ok`/`err` constructors carry the
  returned position.
-/

/-- Mirror of the source's `RiffError` enum. `UnexpectedEndOfData` carries
`(usize, u32, usize)` in the source; all three fields are modelled as `Nat`
(the middle one is produced from a `u32`, hence is `< 2 ^ 32` wherever the
source constructs it). -/
inductive RiffError where
  | EncounteredInvalidIDNotASCII : Nat → RiffError
  | InvalidIDNotASCII : RiffError
  | EndOfData : RiffError
  | UnexpectedEndOfData : Nat → Nat → Nat → RiffError
deriving DecidableEq

/-- Mirror of the source's `ChunkId` struct: 4 raw bytes (the length is
enforced by the Rust array type `[u8; 4]`; here it is maintained by the
validated constructor and by `read_id_at`, which always hands over a
4-byte slice). -/
structure ChunkId where
  id : List Nat
deriving DecidableEq

/-- Mirror of the source's `Chunk` struct: payload view, id and declared
length. -/
structure Chunk where
  data : List Nat
  id : ChunkId
  len : Nat
deriving DecidableEq

/-- Outcome of a source function returning `(usize, Result<a, RiffError>)`:
`ok`/`err` carry the returned position, `panic` models a Rust panic
(integer underflow on `usize` subtraction, out-of-bounds slicing, or a
failed `unwrap`). -/
inductive RResult (α : Type) where
  | ok : Nat → α → RResult α
  | err : Nat → RiffError → RResult α
  | panic : RResult α
deriving DecidableEq

/-- Mirror of `<[u8]>::is_ascii` / `<[u8; 4]>::is_ascii`: every byte is at
most `0x7F`. -/
def bytes_is_ascii (l : List Nat) : Bool :=
  l.all (fun b => b ≤ 0x7F)

/-- Mirror of `ChunkId::from_ascii`. -/
def ChunkId.from_ascii (id : List Nat) : Except RiffError ChunkId :=
  if bytes_is_ascii id = false then .error .InvalidIDNotASCII
  else .ok ⟨id⟩

/-- Model of `str::from_utf8`, the external library function
`ChunkId::to_ascii` relies on: validate a byte list as UTF-8 and decode it
to its characters. `none` models a validation failure (in `to_ascii` that
would make the `.unwrap()` panic). Plain ASCII bytes decode to themselves;
the multi-byte arms implement the standard UTF-8 ranges (continuation
bytes, overlong-encoding, surrogate and upper-bound checks). -/
def utf8_step (b : Nat) (rest : List Nat) : Option (Char × List Nat) :=
  if b ≤ 0x7F then some (Char.ofNat b, rest)
  else if 0xC2 ≤ b && b ≤ 0xDF then
    match rest with
    | b1 :: rest1 =>
      if 0x80 ≤ b1 && b1 ≤ 0xBF then
        some (Char.ofNat ((b - 0xC0) * 0x40 + (b1 - 0x80)), rest1)
      else none
    | [] => none
  else if 0xE0 ≤ b && b ≤ 0xEF then
    match rest with
    | b1 :: b2 :: rest2 =>
      if (0x80 ≤ b1 && b1 ≤ 0xBF) && (0x80 ≤ b2 && b2 ≤ 0xBF) &&
          (!(b == 0xE0) || 0xA0 ≤ b1) && (!(b == 0xED) || b1 ≤ 0x9F) then
        some (Char.ofNat ((b - 0xE0) * 0x1000 + (b1 - 0x80) * 0x40 + (b2 - 0x80)), rest2)
      else none
    | _ => none
  else if 0xF0 ≤ b && b ≤ 0xF4 then
    match rest with
    | b1 :: b2 :: b3 :: rest3 =>
      if (0x80 ≤ b1 && b1 ≤ 0xBF) && (0x80 ≤ b2 && b2 ≤ 0xBF) &&
          (0x80 ≤ b3 && b3 ≤ 0xBF) && (!(b == 0xF0) || 0x90 ≤ b1) &&
          (!(b == 0xF4) || b1 ≤ 0x8F) then
        some (Char.ofNat ((b - 0xF0) * 0x40000 + (b1 - 0x80) * 0x1000 +
          (b2 - 0x80) * 0x40 + (b3 - 0x80)), rest3)
      else none
    | _ => none
  else none

theorem utf8_step_shrinks {b : Nat} {rest rest2 : List Nat} {c : Char}
    (h : utf8_step b rest = some (c, rest2)) : rest2.length ≤ rest.length := by
  unfold utf8_step at h
  split at h
  · injection h with h1
    injection h1 with h2 h3
    subst h3
    exact le_refl _
  split at h
  · split at h
    · split at h
      · injection h with h1
        injection h1 with h2 h3
        subst h3
        simp only [List.length_cons]
        omega
      · exact Option.noConfusion h
    · exact Option.noConfusion h
  split at h
  · split at h
    · split at h
      · injection h with h1
        injection h1 with h2 h3
        subst h3
        simp only [List.length_cons]
        omega
      · exact Option.noConfusion h
    · exact Option.noConfusion h
  split at h
  · split at h
    · split at h
      · injection h with h1
        injection h1 with h2 h3
        subst h3
        simp only [List.length_cons]
        omega
      · exact Option.noConfusion h
    · exact Option.noConfusion h
  exact Option.noConfusion h

def utf8_decode (l : List Nat) : Option (List Char) :=
  match l with
  | [] => some []
  | b :: rest =>
    match h : utf8_step b rest with
    | some (c, rest2) => (utf8_decode rest2).map (fun cs => c :: cs)
    | none => none
termination_by l.length
decreasing_by
  have := utf8_step_shrinks h
  simp
  omega

/-- Mirror of `ChunkId::to_ascii`: `str::from_utf8(self.id).unwrap()`, the
resulting `&str` rendered as its characters. `none` models the panic of the
`.unwrap()` on non-UTF-8 bytes (the source comments that this never
happens, which claim C9 proves for validated ids). -/
def ChunkId.to_ascii (c : ChunkId) : Option (List Char) :=
  utf8_decode c.id

/-- Mirror of `read_id_at`. The source computes `data.len() - pos` on
`usize` (panic when `pos > data.len()`), slices `&data[pos..pos + 4]`
(in-bounds thanks to the guard), advances `pos` by 4 and only then
validates ASCII — so the error offset it reports is the position just
after the tag. -/
def read_id_at (data : List Nat) (pos : Nat) : RResult (List Nat) :=
  if data.length < pos then .panic
  else if data.length - pos < 4 then .err pos .EndOfData
  else if bytes_is_ascii ((data.drop pos).take 4) = false then
    .err (pos + 4) (.EncounteredInvalidIDNotASCII (pos + 4))
  else .ok (pos + 4) ((data.drop pos).take 4)

/-- Mirror of `read_len_at`: guard for 4 bytes, slice them, and interpret
them as a little-endian `u32` (`u32::from_le_bytes` after a
`try_into().unwrap()` that the source notes can never fail; the wildcard
arm models that unwrap and is unreachable under the guard). -/
def read_len_at (data : List Nat) (pos : Nat) : RResult Nat :=
  if data.length < pos then .panic
  else if data.length - pos < 4 then .err pos .EndOfData
  else
    match (data.drop pos).take 4 with
    | [b0, b1, b2, b3] =>
      .ok (pos + 4) (b0 + b1 * 0x100 + b2 * 0x10000 + b3 * 0x1000000)
    | _ => .panic

/-- Mirror of `read_data_at`.  The source's bounds test is
`data.len() <= (pos + len)`, and its *success* branch is the one in which
that test holds; inside it, the slice `&data[pos..(pos + len)]` panics
unless `pos + len ≤ data.len()`, so the non-panicking success requires
`pos + len = data.len()` exactly.  On success the position advances by
`len`, plus one pad byte when `len` is odd.  The other branch builds
`UnexpectedEndOfData(pos - 4, len as u32, data.len() - (pos + len))`:
`pos - 4` panics when `pos < 4`, and `len.try_into()` (usize → u32)
panics when `len ≥ 2 ^ 32`; under this branch `pos + len < data.len()`,
so the last field's subtraction cannot underflow. -/
def read_data_at (data : List Nat) (pos : Nat) (len : Nat) : RResult (List Nat) :=
  if data.length ≤ pos + len then
    if data.length < pos + len then .panic
    else .ok (pos + len + (if len % 2 ≠ 0 then 1 else 0)) ((data.drop pos).take len)
  else if pos < 4 then .panic
  else if 2 ^ 32 ≤ len then .panic
  else .err pos (.UnexpectedEndOfData (pos - 4) len (data.length - (pos + len)))

/-- Mirror of `read_chunk_at`: upfront 8-byte check, then tag, length and
payload reads in order, short-circuiting on the first failure with the
position that sub-read reported.  The `.error` arm of the id conversion
models the `ChunkId::from_ascii(..).unwrap()` (unreachable, because
`read_id_at` only succeeds on ASCII bytes). -/
def read_chunk_at (data : List Nat) (pos : Nat) : RResult Chunk :=
  if data.length < pos then .panic
  else if data.length - pos < 8 then .err pos .EndOfData
  else
    match read_id_at data pos with
    | .panic => .panic
    | .err new_pos e => .err new_pos e
    | .ok pos1 id_as_ascii =>
      match ChunkId.from_ascii id_as_ascii with
      | .error _ => .panic
      | .ok id =>
        match read_len_at data pos1 with
        | .panic => .panic
        | .err p e => .err p e
        | .ok pos2 len =>
          match read_data_at data pos2 len with
          | .panic => .panic
          | .err p e => .err p e
          | .ok pos3 payload_data => .ok pos3 ⟨payload_data, id, len⟩

/-- Mirror of the source's `RiffReader` struct: borrowed buffer plus the
index of the next byte to read. -/
structure RiffReader where
  data : List Nat
  pos : Nat
deriving DecidableEq

/-- Mirror of `RiffReader::new`. -/
def RiffReader.new (data : List Nat) : RiffReader :=
  ⟨data, 0⟩

/-- Mirror of `RiffReader::read_next_chunk`: run `read_chunk_at` at the
current position and unconditionally store the returned position.  `none`
models a panic propagating out of `read_chunk_at`. -/
def RiffReader.read_next_chunk (r : RiffReader) :
    Option (RiffReader × Except RiffError Chunk) :=
  match read_chunk_at r.data r.pos with
  | .ok p c => some ({ r with pos := p }, .ok c)
  | .err p e => some ({ r with pos := p }, .error e)
  | .panic => none

/-- Result type of the lookup: mirror of
`Option<Result<Chunk, RiffError>>` (`found`/`failed` = `Some(Ok)` /
`Some(Err)`, `notFound` = `None`), extended with the panic outcome. -/
inductive LookupResult where
  | found : Chunk → LookupResult
  | notFound : LookupResult
  | failed : RiffError → LookupResult
  | panic : LookupResult
deriving DecidableEq

/-! Position bounds of the primitive readers.  These are stated before
`get_chunk_loop` because that loop's well-foundedness rests on them: a
successful `read_chunk_at` strictly advances the cursor and never lands
beyond `data.length + 1` (its payload read only succeeds when the payload
ends exactly at the end of the buffer). -/

theorem read_id_at_ok_pos {data : List Nat} {pos p : Nat} {v : List Nat}
    (h : read_id_at data pos = .ok p v) : p = pos + 4 ∧ pos + 4 ≤ data.length := by
  unfold read_id_at at h
  split at h
  · exact RResult.noConfusion h
  split at h
  · exact RResult.noConfusion h
  split at h
  · exact RResult.noConfusion h
  injection h with h1 _
  omega

theorem read_id_at_err_pos {data : List Nat} {pos p : Nat} {e : RiffError}
    (h : read_id_at data pos = .err p e) : pos ≤ p ∧ p ≤ data.length := by
  unfold read_id_at at h
  split at h
  · exact RResult.noConfusion h
  split at h
  · injection h with h1 _; omega
  split at h
  · injection h with h1 _; omega
  exact RResult.noConfusion h

theorem read_len_at_ok_pos {data : List Nat} {pos p v : Nat}
    (h : read_len_at data pos = .ok p v) : p = pos + 4 ∧ pos + 4 ≤ data.length := by
  unfold read_len_at at h
  split at h
  · exact RResult.noConfusion h
  split at h
  · exact RResult.noConfusion h
  split at h
  · injection h with h1 _; omega
  exact RResult.noConfusion h

theorem read_len_at_err_pos {data : List Nat} {pos p : Nat} {e : RiffError}
    (h : read_len_at data pos = .err p e) : p = pos ∧ pos ≤ data.length := by
  unfold read_len_at at h
  split at h
  · exact RResult.noConfusion h
  split at h
  · injection h with h1 _; omega
  split at h
  · exact RResult.noConfusion h
  exact RResult.noConfusion h

theorem read_data_at_ok_pos {data : List Nat} {pos len p : Nat} {v : List Nat}
    (h : read_data_at data pos len = .ok p v) :
    data.length = pos + len ∧ (p = pos + len ∨ p = pos + len + 1) := by
  unfold read_data_at at h
  split at h
  · split at h
    · exact RResult.noConfusion h
    · injection h with h1 _
      split at h1 <;> omega
  split at h
  · exact RResult.noConfusion h
  split at h
  · exact RResult.noConfusion h
  exact RResult.noConfusion h

theorem read_data_at_err_pos {data : List Nat} {pos len p : Nat} {e : RiffError}
    (h : read_data_at data pos len = .err p e) : p = pos ∧ pos + len < data.length := by
  unfold read_data_at at h
  split at h
  · split at h
    · exact RResult.noConfusion h
    · exact RResult.noConfusion h
  split at h
  · exact RResult.noConfusion h
  split at h
  · exact RResult.noConfusion h
  injection h with h1 _
  omega

theorem read_chunk_at_ok_bounds {data : List Nat} {pos p : Nat} {c : Chunk}
    (h : read_chunk_at data pos = .ok p c) : pos < p ∧ p ≤ data.length + 1 := by
  unfold read_chunk_at at h
  split at h
  · exact RResult.noConfusion h
  split at h
  · exact RResult.noConfusion h
  split at h
  · exact RResult.noConfusion h
  · exact RResult.noConfusion h
  rename_i pos1 bytes heq1
  split at h
  · exact RResult.noConfusion h
  split at h
  · exact RResult.noConfusion h
  · exact RResult.noConfusion h
  rename_i pos2 len heq3
  split at h
  · exact RResult.noConfusion h
  · exact RResult.noConfusion h
  rename_i pos3 payload heq4
  obtain ⟨e1, e1b⟩ := read_id_at_ok_pos heq1
  obtain ⟨e3, e3b⟩ := read_len_at_ok_pos heq3
  obtain ⟨e4a, e4b⟩ := read_data_at_ok_pos heq4
  injection h with h1 _
  omega

theorem read_chunk_at_err_bounds {data : List Nat} {pos p : Nat} {e : RiffError}
    (h : read_chunk_at data pos = .err p e) : pos ≤ p ∧ p ≤ data.length := by
  unfold read_chunk_at at h
  split at h
  · exact RResult.noConfusion h
  split at h
  · injection h with h1 _; omega
  split at h
  · exact RResult.noConfusion h
  · rename_i q e1 heq
    obtain ⟨g1, g2⟩ := read_id_at_err_pos heq
    injection h with h1 _
    omega
  rename_i pos1 bytes heq1
  split at h
  · exact RResult.noConfusion h
  split at h
  · exact RResult.noConfusion h
  · rename_i q e1 heq
    obtain ⟨g1, g2⟩ := read_len_at_err_pos heq
    obtain ⟨f1, f2⟩ := read_id_at_ok_pos heq1
    injection h with h1 _
    omega
  rename_i pos2 len heq3
  split at h
  · exact RResult.noConfusion h
  · rename_i q e1 heq
    obtain ⟨g1, g2⟩ := read_data_at_err_pos heq
    obtain ⟨f1, f2⟩ := read_id_at_ok_pos heq1
    obtain ⟨k1, k2⟩ := read_len_at_ok_pos heq3
    injection h with h1 _
    omega
  exact RResult.noConfusion h

/-- Mirror of the loop body of `RiffReader::get_chunk`, scanning from
`pos` with a local cursor. -/
def get_chunk_loop (data : List Nat) (wanted_id : ChunkId) (pos : Nat) : LookupResult :=
  match h : read_chunk_at data pos with
  | .ok new_pos chunk =>
    if chunk.id = wanted_id then .found chunk
    else get_chunk_loop data wanted_id new_pos
  | .err _ e =>
    match e with
    | .EndOfData => .notFound
    | _ => .failed e
  | .panic => .panic
termination_by data.length + 2 - pos
decreasing_by
  have hb := read_chunk_at_ok_bounds h
  omega

/-- Mirror of `RiffReader::get_chunk`: independent scan starting at
offset 0. -/
def RiffReader.get_chunk (r : RiffReader) (wanted_id : ChunkId) : LookupResult :=
  get_chunk_loop r.data wanted_id 0

/-- Terminal outcome of a sequential walk over the whole buffer (used by
the spec-side description of the lookup, claim C6). -/
inductive SeqEnd where
  | endOfData : SeqEnd
  | failed : RiffError → SeqEnd
  | panicked : SeqEnd
deriving DecidableEq

/-- The sequential parse trace of the buffer from `pos`: the chunks
`read_chunk_at` yields in buffer order, and the terminal outcome the walk
ends in.  This is the spec's notion of "the chunks in buffer order";
`get_chunk_spec` below is defined from it. -/
def seqScan (data : List Nat) (pos : Nat) : List Chunk × SeqEnd :=
  match h : read_chunk_at data pos with
  | .ok new_pos c =>
    let r := seqScan data new_pos
    (c :: r.1, r.2)
  | .err _ .EndOfData => ([], .endOfData)
  | .err _ e => ([], .failed e)
  | .panic => ([], .panicked)
termination_by data.length + 2 - pos
decreasing_by
  have hb := read_chunk_at_ok_bounds h
  omega

/-- Dispatch on a parse trace, following the spec's words for the lookup:
the first chunk whose id equals `wanted_id` is returned; with no match, an
`EndOfData` end of the scan is "not found" and any other failure is
propagated unchanged. -/
def lookup_of_scan (s : List Chunk × SeqEnd) (wanted_id : ChunkId) : LookupResult :=
  match s.1.find? (fun c => decide (c.id = wanted_id)) with
  | some c => .found c
  | none =>
    match s.2 with
    | .endOfData => .notFound
    | .failed e => .failed e
    | .panicked => .panic

/-- Modelled from the spec: the behaviour §4.3 prescribes for `get_chunk`
(first id match in buffer order from offset 0; `EndOfData` means "not
found"; any other assembly error is propagated).  Claim C6 proves the
source's `get_chunk` equal to this description. -/
def get_chunk_spec (data : List Nat) (wanted_id : ChunkId) : LookupResult :=
  lookup_of_scan (seqScan data 0) wanted_id

/-- Whether an `Except` is `ok` (used to state claim C9). -/
def except_is_ok {ε α : Type} (x : Except ε α) : Bool :=
  match x with
  | .ok _ => true
  | .error _ => false

/-- Whether an outcome is the error `EndOfData` (used to state claim
C10). -/
def is_end_of_data_err {α : Type} (r : RResult α) : Bool :=
  match r with
  | .err _ .EndOfData => true
  | _ => false

theorem get_chunk_loop_ok {data : List Nat} {pos np : Nat} {c : Chunk} {w : ChunkId}
    (h : read_chunk_at data pos = .ok np c) :
    get_chunk_loop data w pos = if c.id = w then .found c else get_chunk_loop data w np := by
  rw [get_chunk_loop]
  split
  · rename_i np2 c2 heq
    rw [h] at heq
    injection heq with e1 e2
    subst e1
    subst e2
    rfl
  · rename_i p2 e2 heq
    rw [h] at heq
    exact RResult.noConfusion heq
  · rename_i heq
    rw [h] at heq
    exact RResult.noConfusion heq

theorem seqScan_ok {data : List Nat} {pos np : Nat} {c : Chunk}
    (h : read_chunk_at data pos = .ok np c) :
    seqScan data pos = (c :: (seqScan data np).1, (seqScan data np).2) := by
  rw [seqScan]
  split
  · rename_i np2 c2 heq
    rw [h] at heq
    injection heq with e1 e2
    subst e1
    subst e2
    rfl
  · rename_i p2 heq
    rw [h] at heq
    exact RResult.noConfusion heq
  · rename_i p2 e2 hne heq
    rw [h] at heq
    exact RResult.noConfusion heq
  · rename_i heq
    rw [h] at heq
    exact RResult.noConfusion heq

theorem get_chunk_loop_err {data : List Nat} {pos p : Nat} {e : RiffError} {w : ChunkId}
    (h : read_chunk_at data pos = .err p e) :
    get_chunk_loop data w pos =
      match e with
      | .EndOfData => .notFound
      | _ => .failed e := by
  rw [get_chunk_loop]
  split
  · rename_i np2 c2 heq
    rw [h] at heq
    exact RResult.noConfusion heq
  · rename_i p2 e2 heq
    rw [h] at heq
    injection heq with e1 e2
    subst e1
    subst e2
    rfl
  · rename_i heq
    rw [h] at heq
    exact RResult.noConfusion heq

theorem get_chunk_loop_panic {data : List Nat} {pos : Nat} {w : ChunkId}
    (h : read_chunk_at data pos = .panic) :
    get_chunk_loop data w pos = .panic := by
  rw [get_chunk_loop]
  split
  · rename_i np2 c2 heq
    rw [h] at heq
    exact RResult.noConfusion heq
  · rename_i p2 e2 heq
    rw [h] at heq
    exact RResult.noConfusion heq
  · rfl

theorem seqScan_err_eod {data : List Nat} {pos p : Nat}
    (h : read_chunk_at data pos = .err p .EndOfData) :
    seqScan data pos = ([], .endOfData) := by
  rw [seqScan]
  split
  · rename_i np2 c2 heq
    rw [h] at heq
    exact RResult.noConfusion heq
  · rfl
  · rename_i p2 e2 hne heq
    rw [h] at heq
    injection heq with e1 e2
    exact absurd e2.symm hne
  · rename_i heq
    rw [h] at heq
    exact RResult.noConfusion heq

theorem seqScan_err_other {data : List Nat} {pos p : Nat} {e : RiffError}
    (h : read_chunk_at data pos = .err p e) (hne : e ≠ .EndOfData) :
    seqScan data pos = ([], .failed e) := by
  rw [seqScan]
  split
  · rename_i np2 c2 heq
    rw [h] at heq
    exact RResult.noConfusion heq
  · rename_i p2 heq
    rw [h] at heq
    injection heq with e1 e2
    exact absurd e2 hne
  · rename_i p2 e2 hne2 heq
    rw [h] at heq
    injection heq with e1 e2
    subst e2
    rfl
  · rename_i heq
    rw [h] at heq
    exact RResult.noConfusion heq

theorem seqScan_panic {data : List Nat} {pos : Nat}
    (h : read_chunk_at data pos = .panic) :
    seqScan data pos = ([], .panicked) := by
  rw [seqScan]
  split
  · rename_i np2 c2 heq
    rw [h] at heq
    exact RResult.noConfusion heq
  · rename_i p2 heq
    rw [h] at heq
    exact RResult.noConfusion heq
  · rename_i p2 e2 hne heq
    rw [h] at heq
    exact RResult.noConfusion heq
  · rfl

theorem lookup_of_scan_cons_eq {c : Chunk} {l : List Chunk} {e : SeqEnd} {w : ChunkId}
    (h : c.id = w) : lookup_of_scan (c :: l, e) w = .found c := by
  unfold lookup_of_scan
  rw [List.find?_cons_of_pos]
  simpa using h

theorem lookup_of_scan_cons_ne {c : Chunk} {l : List Chunk} {e : SeqEnd} {w : ChunkId}
    (h : ¬ c.id = w) : lookup_of_scan (c :: l, e) w = lookup_of_scan (l, e) w := by
  unfold lookup_of_scan
  rw [List.find?_cons_of_neg]
  simpa using h

theorem get_chunk_loop_eq_scan (data : List Nat) (w : ChunkId) :
    ∀ n pos, data.length + 2 - pos ≤ n →
      get_chunk_loop data w pos = lookup_of_scan (seqScan data pos) w := by
  intro n
  induction n with
  | zero =>
    intro pos hn
    have hrc : read_chunk_at data pos = .panic := by
      unfold read_chunk_at
      rw [if_pos (by omega)]
    rw [get_chunk_loop_panic hrc, seqScan_panic hrc]
    rfl
  | succ n ih =>
    intro pos hn
    cases hrc : read_chunk_at data pos with
    | ok np c =>
      have hb := read_chunk_at_ok_bounds hrc
      rw [get_chunk_loop_ok hrc, seqScan_ok hrc]
      by_cases hidm : c.id = w
      · rw [if_pos hidm, lookup_of_scan_cons_eq hidm]
      · rw [if_neg hidm, lookup_of_scan_cons_ne hidm]
        exact ih np (by omega)
    | err p e =>
      by_cases heod : e = RiffError.EndOfData
      · subst heod
        rw [get_chunk_loop_err hrc, seqScan_err_eod hrc]
        rfl
      · rw [get_chunk_loop_err hrc, seqScan_err_other hrc heod]
        cases e with
        | EndOfData => exact absurd rfl heod
        | EncounteredInvalidIDNotASCII q => rfl
        | InvalidIDNotASCII => rfl
        | UnexpectedEndOfData a b c => rfl
    | panic =>
      rw [get_chunk_loop_panic hrc, seqScan_panic hrc]
      rfl

theorem read_data_at_err_shape {data : List Nat} {pos len p : Nat} {e : RiffError}
    (h : read_data_at data pos len = .err p e) :
    e = .UnexpectedEndOfData (pos - 4) len (data.length - (pos + len)) := by
  unfold read_data_at at h
  split at h
  · split at h
    · exact RResult.noConfusion h
    · exact RResult.noConfusion h
  split at h
  · exact RResult.noConfusion h
  split at h
  · exact RResult.noConfusion h
  injection h with h1 h2
  exact h2.symm

theorem bytes_is_ascii_eq_all_lt (l : List Nat) :
    bytes_is_ascii l = l.all (fun x => decide (x < 0x80)) := by
  unfold bytes_is_ascii
  congr 1
  funext x
  simp only [decide_eq_decide]
  omega

theorem utf8_decode_ascii (l : List Nat)
    (h : l.all (fun x => decide (x ≤ 0x7F)) = true) :
    utf8_decode l = some (l.map Char.ofNat) := by
  induction l with
  | nil =>
    rw [utf8_decode]
    rfl
  | cons b rest ih =>
    rw [List.all_cons, Bool.and_eq_true] at h
    have hb : b ≤ 0x7F := by simpa using h.1
    have hstep : utf8_step b rest = some (Char.ofNat b, rest) := by
      unfold utf8_step
      rw [if_pos hb]
    rw [utf8_decode]
    split
    · rename_i c rest2 heq
      rw [hstep] at heq
      injection heq with h1
      injection h1 with h2 h3
      subst h2
      subst h3
      rw [ih h.2]
      rfl
    · rename_i heq
      rw [hstep] at heq
      exact Option.noConfusion heq

/-- Claim C1 (refuted by the code): for a well-formed chunk of declared
length L with at least L payload bytes after the header,
`read_next_chunk` is claimed to succeed with `len = L` and to advance the
position by `8 + L + (1 if L odd)`.  At the spec's own concrete scenario —
tag "test", length 1, payload `0xFF`, pad byte `0x00` — the code instead
fails with `UnexpectedEndOfData`: `read_data_at` guards its success branch
with `data.len() <= pos + len` (an inverted bounds check), so a payload
followed by any further bytes is rejected. -/
theorem c1_code_bug_spec_scenario_rejected :
    (RiffReader.new [0x74, 0x65, 0x73, 0x74, 0x01, 0x00, 0x00, 0x00, 0xFF, 0x00]).read_next_chunk
      = some (⟨[0x74, 0x65, 0x73, 0x74, 0x01, 0x00, 0x00, 0x00, 0xFF, 0x00], 8⟩,
          .error (.UnexpectedEndOfData 4 1 1)) := by rfl

/-- Claim C2 (refuted by the code): the core is claimed never to panic or
read out of bounds.  On the 8-byte buffer with tag "test" and declared
length 100, `read_data_at` takes its `data.len() <= pos + len` branch and
evaluates the slice `&data[8..108]` of an 8-byte buffer, which panics
(modelled as the `none` outcome of `read_next_chunk`). -/
theorem c2_code_bug_read_next_chunk_panics :
    (RiffReader.new [0x74, 0x65, 0x73, 0x74, 0x64, 0x00, 0x00, 0x00]).read_next_chunk
      = none := by rfl

/-- Claim C3 (refuted by the code): when the declared length exceeds the
bytes remaining, `read_next_chunk` is claimed to fail with
`UnexpectedEndOfData(length_field_offset, L, bytes_available)`.  On the
buffer with tag "test", declared length 5 and only 2 payload bytes, the
code panics instead (out-of-bounds slice `&data[8..13]` of a 10-byte
buffer); the `UnexpectedEndOfData` branch is in fact taken exactly when
*more* than L bytes remain, and then carries the surplus
`data.len() - (pos + len)` rather than the bytes available. -/
theorem c3_code_bug_truncated_chunk_panics :
    read_chunk_at [0x74, 0x65, 0x73, 0x74, 0x05, 0x00, 0x00, 0x00, 0x01, 0x02] 0
      = .panic := by rfl

/-- Claim C4, counterexample: the claimed invariant `pos ≤ data.length` is
not preserved by `read_next_chunk`.  On the 9-byte buffer holding tag
"test", length 1 and payload `0xFF` with no pad byte present, the read
succeeds and the position advances to 10 — one past the end of the buffer
— because the pad-byte skip for odd lengths advances the cursor without a
bounds check. -/
theorem c4_counterexample_pos_exceeds_length :
    (RiffReader.new [0x74, 0x65, 0x73, 0x74, 0x01, 0x00, 0x00, 0x00, 0xFF]).read_next_chunk
      = some (⟨[0x74, 0x65, 0x73, 0x74, 0x01, 0x00, 0x00, 0x00, 0xFF], 10⟩,
          .ok ⟨[0xFF], ⟨[0x74, 0x65, 0x73, 0x74]⟩, 1⟩) ∧
    ([0x74, 0x65, 0x73, 0x74, 0x01, 0x00, 0x00, 0x00, 0xFF] : List Nat).length < 10 :=
  ⟨by rfl, by decide⟩

/-- Claim C4, amended: a fresh reader starts at `pos = 0`, and every
`read_next_chunk` call that returns (rather than panicking) moves the
position monotonically forward and keeps it at most `data.length + 1`
(one past the end, reachable only after an odd-length chunk that ends
exactly at the end of the buffer). -/
theorem c4_amended_pos_monotone_bounded (d : List Nat) (r r2 : RiffReader)
    (res : Except RiffError Chunk)
    (h : r.read_next_chunk = some (r2, res)) :
    (RiffReader.new d).pos = 0 ∧ r.pos ≤ r2.pos ∧ r2.pos ≤ r.data.length + 1 := by
  refine ⟨rfl, ?_⟩
  unfold RiffReader.read_next_chunk at h
  split at h
  · rename_i p c heq
    obtain ⟨hb1, hb2⟩ := read_chunk_at_ok_bounds heq
    simp only [Option.some.injEq, Prod.mk.injEq] at h
    obtain ⟨h2, h3⟩ := h
    subst h2
    dsimp only
    omega
  · rename_i p e heq
    obtain ⟨hb1, hb2⟩ := read_chunk_at_err_bounds heq
    simp only [Option.some.injEq, Prod.mk.injEq] at h
    obtain ⟨h2, h3⟩ := h
    subst h2
    dsimp only
    omega
  · exact Option.noConfusion h

/-- Witness for claim C4's amended theorem, at the empty buffer. -/
theorem c4_amended_witness :
    (RiffReader.new []).pos = 0 ∧
    (RiffReader.new []).pos ≤ (RiffReader.new []).pos ∧
    (RiffReader.new []).pos ≤ (RiffReader.new []).data.length + 1 :=
  c4_amended_pos_monotone_bounded [] (RiffReader.new []) (RiffReader.new [])
    (.error .EndOfData) (by rfl)

/-- Claim C5: with fewer than 8 bytes remaining at the reader's position
(the position being inside the buffer, as the spec's reader invariant
states), `read_next_chunk` fails with `EndOfData`, does not panic, and
leaves the position where it was. -/
theorem c5_end_of_data_on_short_remainder (r : RiffReader)
    (h1 : r.pos ≤ r.data.length) (h2 : r.data.length - r.pos < 8) :
    r.read_next_chunk = some (r, .error .EndOfData) := by
  unfold RiffReader.read_next_chunk
  have hrc : read_chunk_at r.data r.pos = .err r.pos .EndOfData := by
    unfold read_chunk_at
    rw [if_neg (by omega), if_pos h2]
  rw [hrc]

/-- Witness for claim C5, at the zero-length buffer. -/
theorem c5_witness_empty_buffer :
    (RiffReader.new []).read_next_chunk = some (RiffReader.new [], .error .EndOfData) :=
  c5_end_of_data_on_short_remainder (RiffReader.new []) (by decide) (by decide)

/-- Claim C6: `get_chunk` equals the spec-side lookup `get_chunk_spec` —
it returns the first chunk in buffer order from offset 0 whose id equals
the wanted id; reaching `EndOfData` without a match is "not found" with no
error; any other assembly error encountered first is propagated
unchanged. -/
theorem c6_get_chunk_matches_spec_scan (r : RiffReader) (wanted_id : ChunkId) :
    r.get_chunk wanted_id = get_chunk_spec r.data wanted_id :=
  get_chunk_loop_eq_scan r.data wanted_id (r.data.length + 2) 0 (by omega)

/-- Claim C7: `get_chunk` takes the reader immutably (it cannot move the
reader's sequential position, which the embedding reflects by returning
only the lookup result), and its result does not depend on the reader's
current position: any two readers over the same buffer agree. -/
theorem c7_get_chunk_independent_of_pos (data : List Nat) (pos1 pos2 : Nat)
    (w : ChunkId) :
    RiffReader.get_chunk ⟨data, pos1⟩ w = RiffReader.get_chunk ⟨data, pos2⟩ w := rfl

/-- Claim C8 (refuted by the code): a tag read that lands on non-ASCII
bytes is claimed to report the offset at which the bad tag starts.
`read_id_at` increments the position by 4 *before* the ASCII check and
reports that incremented value: on a bad tag at offset 0 it carries 4,
the position just past the tag, contradicting its own error message
("ID at position {} ... is not valid ASCII"). -/
theorem c8_code_bug_tag_error_offset :
    read_id_at [0xFF, 0xFF, 0xFF, 0xFF, 0x00, 0x00, 0x00, 0x00] 0
      = .err 4 (.EncounteredInvalidIDNotASCII 4) := by rfl

/-- Claim C9: for a 4-byte input, `ChunkId::from_ascii` succeeds exactly
when every byte is below `0x80` and fails with `InvalidIDNotASCII`
otherwise; on success, `to_ascii` does not fail and reproduces the
original 4 characters. -/
theorem c9_from_ascii_iff_ascii_and_roundtrip (b : List Nat) (hlen : b.length = 4)
    (hbytes : b.all (fun x => decide (x < 0x100)) = true) :
    (except_is_ok (ChunkId.from_ascii b) = b.all (fun x => decide (x < 0x80))) ∧
    (b.all (fun x => decide (x < 0x80)) = false →
      ChunkId.from_ascii b = .error .InvalidIDNotASCII) ∧
    (b.all (fun x => decide (x < 0x80)) = true →
      ChunkId.from_ascii b = .ok ⟨b⟩ ∧
      ChunkId.to_ascii ⟨b⟩ = some (b.map Char.ofNat) ∧
      (b.map Char.ofNat).length = 4) := by
  have hba := bytes_is_ascii_eq_all_lt b
  refine ⟨?_, ?_, ?_⟩
  · cases hall : bytes_is_ascii b with
    | false =>
      unfold ChunkId.from_ascii except_is_ok
      rw [hall, if_pos rfl, ← hba, hall]
    | true =>
      unfold ChunkId.from_ascii except_is_ok
      rw [hall, if_neg (by simp), ← hba, hall]
  · intro hf
    have hfa : bytes_is_ascii b = false := by rw [hba]; exact hf
    unfold ChunkId.from_ascii
    rw [hfa, if_pos rfl]
  · intro ht
    have hta : bytes_is_ascii b = true := by rw [hba]; exact ht
    refine ⟨?_, ?_, ?_⟩
    · unfold ChunkId.from_ascii
      rw [hta, if_neg (by simp)]
    · unfold ChunkId.to_ascii
      unfold bytes_is_ascii at hta
      exact utf8_decode_ascii b hta
    · rw [List.length_map, hlen]

/-- Witness for claim C9, at the id "RIFF". -/
theorem c9_witness_riff_id :
    (except_is_ok (ChunkId.from_ascii [0x52, 0x49, 0x46, 0x46]) =
      [0x52, 0x49, 0x46, 0x46].all (fun x => decide (x < 0x80))) ∧
    ([0x52, 0x49, 0x46, 0x46].all (fun x => decide (x < 0x80)) = false →
      ChunkId.from_ascii [0x52, 0x49, 0x46, 0x46] = .error .InvalidIDNotASCII) ∧
    ([0x52, 0x49, 0x46, 0x46].all (fun x => decide (x < 0x80)) = true →
      ChunkId.from_ascii [0x52, 0x49, 0x46, 0x46] = .ok ⟨[0x52, 0x49, 0x46, 0x46]⟩ ∧
      ChunkId.to_ascii ⟨[0x52, 0x49, 0x46, 0x46]⟩ =
        some ([0x52, 0x49, 0x46, 0x46].map Char.ofNat) ∧
      ([0x52, 0x49, 0x46, 0x46].map Char.ofNat).length = 4) :=
  c9_from_ascii_iff_ascii_and_roundtrip [0x52, 0x49, 0x46, 0x46] (by decide) (by decide)

/-- Claim C10: once the upfront 8-byte check of `read_chunk_at` has
passed, the `EndOfData` branches inside `read_id_at` and `read_len_at`
are unreachable, and `read_chunk_at` itself cannot return `EndOfData` —
that error can only come from the upfront check. -/
theorem c10_inner_end_of_data_unreachable (data : List Nat) (pos : Nat)
    (h1 : pos ≤ data.length) (h2 : 8 ≤ data.length - pos) :
    is_end_of_data_err (read_id_at data pos) = false ∧
    is_end_of_data_err (read_len_at data (pos + 4)) = false ∧
    is_end_of_data_err (read_chunk_at data pos) = false := by
  have hA : is_end_of_data_err (read_id_at data pos) = false := by
    unfold read_id_at
    rw [if_neg (by omega), if_neg (by omega)]
    split <;> rfl
  have hB : is_end_of_data_err (read_len_at data (pos + 4)) = false := by
    unfold read_len_at
    rw [if_neg (by omega), if_neg (by omega)]
    split <;> rfl
  refine ⟨hA, hB, ?_⟩
  unfold read_chunk_at
  rw [if_neg (by omega), if_neg (by omega)]
  cases hid : read_id_at data pos with
  | panic => simp only [hid]; rfl
  | err q e =>
    rw [hid] at hA
    simp only [hid]
    cases e with
    | EndOfData => simp [is_end_of_data_err] at hA
    | EncounteredInvalidIDNotASCII q2 => rfl
    | InvalidIDNotASCII => rfl
    | UnexpectedEndOfData a b c => rfl
  | ok pos1 bytes =>
    simp only [hid]
    cases hfa : ChunkId.from_ascii bytes with
    | error err0 => simp only [hfa]; rfl
    | ok cid =>
      simp only [hfa]
      obtain ⟨hp1, hp2⟩ := read_id_at_ok_pos hid
      subst hp1
      cases hlen : read_len_at data (pos + 4) with
      | panic => simp only [hlen]; rfl
      | err q e =>
        rw [hlen] at hB
        simp only [hlen]
        cases e with
        | EndOfData => simp [is_end_of_data_err] at hB
        | EncounteredInvalidIDNotASCII q2 => rfl
        | InvalidIDNotASCII => rfl
        | UnexpectedEndOfData a b c => rfl
      | ok pos2 len =>
        simp only [hlen]
        cases hdat : read_data_at data pos2 len with
        | panic => simp only [hdat]; rfl
        | err q e =>
          simp only [hdat]
          have hsh := read_data_at_err_shape hdat
          subst hsh
          rfl
        | ok pos3 payload => simp only [hdat]; rfl

/-- Witness for claim C10, at an 8-byte all-zero buffer. -/
theorem c10_witness_zero_buffer :
    is_end_of_data_err (read_id_at [0, 0, 0, 0, 0, 0, 0, 0] 0) = false ∧
    is_end_of_data_err (read_len_at [0, 0, 0, 0, 0, 0, 0, 0] (0 + 4)) = false ∧
    is_end_of_data_err (read_chunk_at [0, 0, 0, 0, 0, 0, 0, 0] 0) = false :=
  c10_inner_end_of_data_unreachable [0, 0, 0, 0, 0, 0, 0, 0] 0 (by decide) (by decide)
